import Mathlib

/-!
Verification of the image-accessibility tool: a shallow embedding of the
`POST /api/describe-image` route (`src/app/api/describe-image/route.ts`) and of
the browser upload controller (`src/app/page.tsx`), together with theorems about
the admission gate, payload extraction, description normalization, response
composition, the rate limiter configuration and the client resource discipline.

Modelling conventions:
- JavaScript strings are modelled as Lean `String`s (one `Char` per code unit).
- The Arcjet decision, the vision reply and the speech-synthesis reply are
  inputs to the handler; a rejected promise from an upstream call is an
  `Except.error`.
- `req.formData().get("file")` is modelled as an optional form entry and
  `req.json()` as an optional parsed body (`none` = the parse rejected, which
  the extractor catches).
- Observable side effects of one request (payload extraction, creation of the
  uploaded image / description / audio artifact, upstream calls) are recorded
  in a `PipelineEvents` trace returned next to the response.
-/

namespace ImageAccessibility

/-! ## Server: limits and request model (route.ts) -/

def MAX_FILE_SIZE_BYTES : Nat := 10 * 1024 * 1024

/-- JavaScript `String.prototype.startsWith`, computed on the character
list. -/
def jsStartsWith (s p : String) : Bool :=
  p.data.isPrefixOf s.data

/-- A `File` value found in the multipart form data: its declared MIME type,
its size in bytes and (the base64 rendering of) its bytes. -/
structure FileData where
  type : String
  size : Nat
  base64 : String
  deriving DecidableEq, Repr

/-- `formData.get("file")` yields a `File`, or some non-file value. -/
inductive FormEntry where
  | fileEntry (f : FileData)
  | nonFile
  deriving DecidableEq, Repr

/-- A JSON field value: a string, or some non-string value. -/
inductive JsonField where
  | str (s : String)
  | nonString
  deriving DecidableEq, Repr

/-- The parsed JSON body, as far as the route inspects it: the optional
`imageBase64` field. -/
structure JsonBody where
  imageBase64 : Option JsonField
  deriving DecidableEq, Repr

/-- The parts of an incoming request the route inspects: the declared
content type, the `file` form field (for multipart bodies; `none` when the
field is missing), and the JSON parse result (`none` when `req.json()`
rejects). -/
structure Request where
  contentType : String
  formFile : Option FormEntry
  jsonBody : Option JsonBody
  deriving DecidableEq, Repr

/-! ## Server: payload extraction (route.ts, `extractImageDataUrl`) -/

/-- Embedding of `extractImageDataUrl`: branch on the declared content type;
multipart bodies must carry a `file` field holding a `File` of declared image
type and bounded size, converted to a data URL; otherwise the JSON body must
carry a string `imageBase64` that already starts with `data:image`. -/
def extractImageDataUrl (req : Request) : Option String :=
  if jsStartsWith req.contentType "multipart/form-data" then
    match req.formFile with
    | some (FormEntry.fileEntry file) =>
      if !(jsStartsWith file.type "image/") then none
      else if file.size > MAX_FILE_SIZE_BYTES then none
      else
        let mime := if file.type = "" then "image/png" else file.type
        some ("data:" ++ mime ++ ";base64," ++ file.base64)
    | _ => none
  else
    match req.jsonBody with
    | none => none
    | some json =>
      match json.imageBase64 with
      | some (JsonField.str s) =>
        if !(jsStartsWith s "data:image") then none else some s
      | _ => none

/-! ## Server: vision reply normalization (route.ts, lines 141-150) -/

/-- One typed content part of a vision reply; `text` is `none` when the part
carries no text field (`p?.text` is nullish). -/
structure ContentPart where
  text : Option String
  deriving DecidableEq, Repr

/-- `visionRes.choices[0]?.message?.content`: a plain string, an array of
typed parts, or nullish (missing choice / message / content). -/
inductive RawContent where
  | str (s : String)
  | parts (ps : List ContentPart)
  | nullish
  deriving DecidableEq, Repr

/-- JavaScript `String.prototype.trim`: strip leading and trailing
whitespace. -/
def jsTrim (s : String) : String :=
  String.mk (((s.data.dropWhile Char.isWhitespace).reverse.dropWhile
      Char.isWhitespace).reverse)

/-- JavaScript `String.prototype.slice(0, n)`: the first `n` code units. -/
def jsSlice (s : String) (n : Nat) : String :=
  String.mk (s.data.take n)

/-- The parenthesized normalization of the raw vision content: a plain string
passes through; an array maps each part to `p?.text ?? ""` and joins with
`" "`; anything else becomes `""`. -/
def normalizeContent : RawContent → String
  | RawContent.str s => s
  | RawContent.parts ps => String.intercalate " " (ps.map (fun p => p.text.getD ""))
  | RawContent.nullish => ""

/-- The `description` computed by the handler: normalize, trim, truncate to
800 code units, and fall back to the literal text when the result is empty
(JavaScript `s || "No description available."` falls back exactly on the
empty string). -/
def description (raw : RawContent) : String :=
  if jsSlice (jsTrim (normalizeContent raw)) 800 = "" then
    "No description available."
  else jsSlice (jsTrim (normalizeContent raw)) 800

/-! ## Server: `encodeURIComponent` (platform builtin used at line 169) -/

/-- Characters `encodeURIComponent` leaves unescaped: ASCII letters, digits,
and `- _ . ! ~ * ' ( )` (written here by code point). -/
def isUnreservedChar (c : Char) : Bool :=
  let n := c.toNat
  (65 ≤ n && n ≤ 90) || (97 ≤ n && n ≤ 122) || (48 ≤ n && n ≤ 57) ||
    n == 45 || n == 95 || n == 46 || n == 33 || n == 126 || n == 42 ||
    n == 39 || n == 40 || n == 41

/-- Uppercase hexadecimal digit for `n < 16` (`'0'` past 15, unreached). -/
def toHexDigit : Nat → Char
  | 0 => '0' | 1 => '1' | 2 => '2' | 3 => '3'
  | 4 => '4' | 5 => '5' | 6 => '6' | 7 => '7'
  | 8 => '8' | 9 => '9' | 10 => 'A' | 11 => 'B'
  | 12 => 'C' | 13 => 'D' | 14 => 'E' | 15 => 'F'
  | _ => '0'

/-- The UTF-8 bytes of one character. -/
def utf8Bytes (c : Char) : List Nat :=
  if c.toNat < 128 then [c.toNat]
  else if c.toNat < 2048 then [192 + c.toNat / 64, 128 + c.toNat % 64]
  else if c.toNat < 65536 then
    [224 + c.toNat / 4096, 128 + c.toNat / 64 % 64, 128 + c.toNat % 64]
  else
    [240 + c.toNat / 262144, 128 + c.toNat / 4096 % 64,
     128 + c.toNat / 64 % 64, 128 + c.toNat % 64]

/-- `%XX` escape of one byte. -/
def percentByte (b : Nat) : List Char :=
  ['%', toHexDigit (b / 16), toHexDigit (b % 16)]

/-- `encodeURIComponent` applied to one character. -/
def encodeChar (c : Char) : List Char :=
  if isUnreservedChar c then [c] else (utf8Bytes c).flatMap percentByte

/-- JavaScript `encodeURIComponent`: unreserved characters pass through,
every other character is percent-encoded byte by byte in UTF-8. -/
def encodeURIComponent (s : String) : String :=
  String.mk (s.data.flatMap encodeChar)

/-! ## Client: `decodeURIComponent` (platform builtin used at page.tsx line 92)

The client recovers the description by percent-decoding the custom header:
collect the bytes (a `%XX` escape contributes the byte `XX`, any other
character its own UTF-8 bytes), then decode the byte sequence as UTF-8.
A malformed escape or an invalid byte sequence makes the builtin throw,
modelled as `none`. -/

/-- Prepend a character to a decode result. -/
def consMap (c : Char) : Option (List Char) → Option (List Char)
  | some cs => some (c :: cs)
  | none => none

/-- Prepend a byte to a byte-collection result. -/
def byteConsMap (b : Nat) : Option (List Nat) → Option (List Nat)
  | some bs => some (b :: bs)
  | none => none

/-- Prepend a byte run to a byte-collection result. -/
def appendMap (pre : List Nat) : Option (List Nat) → Option (List Nat)
  | some bs => some (pre ++ bs)
  | none => none

/-- Wrap a decoded character list back into a string. -/
def stringMap : Option (List Char) → Option String
  | some cs => some (String.mk cs)
  | none => none

/-- A UTF-8 continuation byte: `10xxxxxx`. -/
def contByte (b : Nat) : Bool := decide (128 ≤ b) && decide (b < 192)

/-- A Unicode scalar value is not a surrogate. -/
def scalarOk (n : Nat) : Bool := decide (n < 55296) || decide (57343 < n)

/-- The value of one hexadecimal digit (either case), `none` otherwise. -/
def fromHexDigit (c : Char) : Option Nat :=
  if c = '0' then some 0 else if c = '1' then some 1
  else if c = '2' then some 2 else if c = '3' then some 3
  else if c = '4' then some 4 else if c = '5' then some 5
  else if c = '6' then some 6 else if c = '7' then some 7
  else if c = '8' then some 8 else if c = '9' then some 9
  else if c = 'A' ∨ c = 'a' then some 10
  else if c = 'B' ∨ c = 'b' then some 11
  else if c = 'C' ∨ c = 'c' then some 12
  else if c = 'D' ∨ c = 'd' then some 13
  else if c = 'E' ∨ c = 'e' then some 14
  else if c = 'F' ∨ c = 'f' then some 15
  else none

/-- Collect the byte sequence of a percent-encoded string: `%XX` yields the
byte `XX` (`none` on a malformed escape), any other character yields its own
UTF-8 bytes. -/
def percentDecodeBytes : List Char → Option (List Nat)
  | [] => some []
  | c :: rest =>
    if c = '%' then
      match rest with
      | [] => none
      | h :: rest1 =>
        match rest1 with
        | [] => none
        | l :: rest2 =>
          match fromHexDigit h with
          | none => none
          | some hi =>
            match fromHexDigit l with
            | none => none
            | some lo => byteConsMap (16 * hi + lo) (percentDecodeBytes rest2)
    else appendMap (utf8Bytes c) (percentDecodeBytes rest)

/-- Decode a UTF-8 byte sequence: reject stray continuation bytes, overlong
encodings, surrogate code points and out-of-range values. -/
def utf8Decode : List Nat → Option (List Char)
  | [] => some []
  | b0 :: rest =>
    if b0 < 128 then consMap (Char.ofNat b0) (utf8Decode rest)
    else if b0 < 192 then none
    else if b0 < 224 then
      match rest with
      | [] => none
      | b1 :: rest2 =>
        if contByte b1 && decide (128 ≤ (b0 - 192) * 64 + (b1 - 128)) then
          consMap (Char.ofNat ((b0 - 192) * 64 + (b1 - 128)))
            (utf8Decode rest2)
        else none
    else if b0 < 240 then
      match rest with
      | [] => none
      | b1 :: rest1 =>
        match rest1 with
        | [] => none
        | b2 :: rest2 =>
          if contByte b1 && contByte b2 &&
              decide (2048 ≤ (b0 - 224) * 4096 + (b1 - 128) * 64 + (b2 - 128)) &&
              scalarOk ((b0 - 224) * 4096 + (b1 - 128) * 64 + (b2 - 128)) then
            consMap
              (Char.ofNat ((b0 - 224) * 4096 + (b1 - 128) * 64 + (b2 - 128)))
              (utf8Decode rest2)
          else none
    else if b0 < 248 then
      match rest with
      | [] => none
      | b1 :: rest1 =>
        match rest1 with
        | [] => none
        | b2 :: rest2 =>
          match rest2 with
          | [] => none
          | b3 :: rest3 =>
            if contByte b1 && contByte b2 && contByte b3 &&
                decide (65536 ≤ (b0 - 240) * 262144 + (b1 - 128) * 4096 +
                  (b2 - 128) * 64 + (b3 - 128)) &&
                decide ((b0 - 240) * 262144 + (b1 - 128) * 4096 +
                  (b2 - 128) * 64 + (b3 - 128) < 1114112) then
              consMap
                (Char.ofNat ((b0 - 240) * 262144 + (b1 - 128) * 4096 +
                  (b2 - 128) * 64 + (b3 - 128)))
                (utf8Decode rest3)
            else none
    else none

/-- JavaScript `decodeURIComponent`: percent-unescape to bytes, then decode
the bytes as UTF-8; `none` models a thrown `URIError`. -/
def decodeURIComponent (s : String) : Option String :=
  match percentDecodeBytes s.data with
  | none => none
  | some bs => stringMap (utf8Decode bs)

/-- Stated from the spec's words for comparison with `normalizeContent`:
"concatenate the text-bearing parts with single-space separators" — i.e.
join only the parts that do carry text, so that a part without text
contributes nothing and introduces no extra separator. -/
def specJoinTextBearingParts (ps : List ContentPart) : String :=
  String.intercalate " " (ps.filterMap (fun p => p.text))

/-! ## Server: Arcjet decision and POST handler (route.ts, lines 82-176) -/

/-- The facets of the Arcjet decision the handler inspects:
`decision.isDenied()`, `decision.reason.isRateLimit()`,
`decision.reason.isBot()`, `decision.ip.isHosting()` and
`decision.results.some(isSpoofedBot)`. -/
structure ArcjetDecision where
  isDenied : Bool
  reasonIsRateLimit : Bool
  reasonIsBot : Bool
  ipIsHosting : Bool
  hasSpoofedBot : Bool
  deriving DecidableEq, Repr

/-- Response bodies the route can produce: a JSON error object, a plain text
message, or raw audio bytes. -/
inductive ResponseBody where
  | jsonError (error : String)
  | text (msg : String)
  | audio (bytes : List Nat)
  deriving DecidableEq, Repr

/-- An HTTP response: status, the explicitly set headers, and the body. -/
structure Response where
  status : Nat
  headers : List (String × String)
  body : ResponseBody
  deriving DecidableEq, Repr

/-- Trace of the per-request side effects (§3 of the design: UploadedImage,
Description and AudioArtifact are created at most once per request, after
admission). -/
structure PipelineEvents where
  payloadExtractionRun : Bool
  uploadedImageCreated : Bool
  visionCalled : Bool
  descriptionCreated : Bool
  ttsCalled : Bool
  ttsInput : Option String
  audioArtifactCreated : Bool
  deriving DecidableEq, Repr

/-- The empty trace: nothing extracted, no upstream call, no artifact. -/
def noEvents : PipelineEvents :=
  ⟨false, false, false, false, false, none, false⟩

/-- Embedding of the `POST` handler paired with its event trace. The
admission decision and the outcomes of the two upstream calls (vision and
speech synthesis) are inputs; `Except.error` is a rejected upstream promise,
caught by the handler's `try`/`catch` and mapped to 500. -/
def POSTtrace (decision : ArcjetDecision) (req : Request)
    (vision : Except Unit RawContent) (tts : Except Unit (List Nat)) :
    Response × PipelineEvents :=
  if decision.isDenied then
    if decision.reasonIsRateLimit then
      (⟨429, [], ResponseBody.jsonError "Too Many Requests"⟩, noEvents)
    else if decision.reasonIsBot then
      (⟨403, [], ResponseBody.jsonError "No bots allowed"⟩, noEvents)
    else
      (⟨403, [], ResponseBody.jsonError "Forbidden"⟩, noEvents)
  else if decision.ipIsHosting then
    (⟨403, [], ResponseBody.jsonError "Forbidden"⟩, noEvents)
  else if decision.hasSpoofedBot then
    (⟨403, [], ResponseBody.jsonError "Forbidden"⟩, noEvents)
  else
    match extractImageDataUrl req with
    | none =>
      (⟨400, [], ResponseBody.text "Invalid or missing image data"⟩,
       { noEvents with payloadExtractionRun := true })
    | some _imageDataUrl =>
      match vision with
      | Except.error _ =>
        (⟨500, [], ResponseBody.text "Internal Server Error"⟩,
         { payloadExtractionRun := true, uploadedImageCreated := true,
           visionCalled := true, descriptionCreated := false,
           ttsCalled := false, ttsInput := none,
           audioArtifactCreated := false })
      | Except.ok raw =>
        match tts with
        | Except.error _ =>
          (⟨500, [], ResponseBody.text "Internal Server Error"⟩,
           { payloadExtractionRun := true, uploadedImageCreated := true,
             visionCalled := true, descriptionCreated := true,
             ttsCalled := true, ttsInput := some (description raw),
             audioArtifactCreated := false })
        | Except.ok audioBytes =>
          (⟨200,
            [("Content-Type", "audio/mpeg"),
             ("Content-Disposition", "attachment; filename=description.mp3"),
             ("Cache-Control", "no-store"),
             ("X-Description-Text", encodeURIComponent (description raw))],
            ResponseBody.audio audioBytes⟩,
           ⟨true, true, true, true, true, some (description raw), true⟩)

/-- The `POST` handler's response. -/
def POST (decision : ArcjetDecision) (req : Request)
    (vision : Except Unit RawContent) (tts : Except Unit (List Nat)) :
    Response :=
  (POSTtrace decision req vision tts).1

/-! ## Server: token-bucket rate limiter (route.ts, lines 36-41) -/

/-- The token-bucket options passed to `arcjet` in the route. -/
structure TokenBucketConfig where
  refillRate : Nat
  interval : Nat
  capacity : Nat
  deriving DecidableEq, Repr

/-- The limiter configuration from the source: refill 5 tokens per 60-second
interval, capacity 5. -/
def ajTokenBucket : TokenBucketConfig :=
  { refillRate := 5, interval := 60, capacity := 5 }

/-- Per-key limiter state: available tokens and the time of the last refill. -/
structure BucketState where
  tokens : Nat
  lastRefill : Nat
  deriving DecidableEq, Repr

/-- Modelled from the spec: the token-bucket algorithm itself lives in the
`@arcjet/next` dependency, not in this repository; the glossary describes it
as "a rate-limiting algorithm with a fixed capacity that refills at a
constant rate; requests consume tokens and are denied when the bucket is
empty", refilling `refillRate` tokens per elapsed `interval`. One request at
time `now` asking for `requested` tokens: refill for the whole intervals
elapsed since the last refill (capped at capacity), then allow and consume
iff enough tokens remain. -/
def bucketStep (cfg : TokenBucketConfig) (s : BucketState) (now : Nat)
    (requested : Nat) : Bool × BucketState :=
  let steps := (now - s.lastRefill) / cfg.interval
  let tokens := min cfg.capacity (s.tokens + steps * cfg.refillRate)
  let last := s.lastRefill + steps * cfg.interval
  if requested ≤ tokens then (true, ⟨tokens - requested, last⟩)
  else (false, ⟨tokens, last⟩)

/-- Modelled from the spec: run the limiter over a sequence of request
times (1 token per request, as the handler passes `requested: 1`),
returning each request's allow/deny decision. -/
def runBucket (cfg : TokenBucketConfig) (s : BucketState) :
    List Nat → List Bool
  | [] => []
  | t :: ts =>
    let r := bucketStep cfg s t 1
    r.1 :: runBucket cfg r.2 ts

/-- Modelled from the spec: the Arcjet decision a request sees when the
token bucket is the deciding rule — allowed when a token was granted, denied
with reason `RateLimited` otherwise ("absent other denials": no shield, bot,
hosting-IP or spoofed-bot signal). -/
def admissionOfBucket (allowed : Bool) : ArcjetDecision :=
  if allowed then ⟨false, false, false, false, false⟩
  else ⟨true, true, false, false, false⟩

/-! ## Client: upload controller (page.tsx) -/

/-- The client status machine of `page.tsx`. -/
inductive Status where
  | idle
  | uploading
  | processing
  | done
  | error
  deriving DecidableEq, Repr

/-- The client controller state: the React state and refs of `HomePage`,
plus the browser-side bookkeeping needed to observe handle lifetimes — the
list of currently live object URLs and a counter supplying fresh URLs. -/
structure ClientState where
  audioUrl : Option Nat
  descriptionText : Option String
  status : Status
  errorMessage : Option String
  audioObjectUrlRef : Option Nat
  inputValue : String
  liveObjectUrls : List Nat
  nextObjectUrl : Nat
  deriving DecidableEq, Repr

/-- The initial client state: everything unset, no live object URL. -/
def initialClientState : ClientState :=
  ⟨none, none, Status.idle, none, none, "", [], 0⟩

/-- Embedding of `revokePreviousAudioUrl`: if the ref holds a URL, revoke it
(`URL.revokeObjectURL`) and clear the ref. -/
def revokePreviousAudioUrl (s : ClientState) : ClientState :=
  match s.audioObjectUrlRef with
  | some h =>
    { s with liveObjectUrls := s.liveObjectUrls.erase h,
             audioObjectUrlRef := none }
  | none => s

/-- `URL.createObjectURL`: mint a fresh object URL, now live. -/
def createObjectURL (s : ClientState) : Nat × ClientState :=
  (s.nextObjectUrl,
   { s with liveObjectUrls := s.liveObjectUrls ++ [s.nextObjectUrl],
            nextObjectUrl := s.nextObjectUrl + 1 })

/-- Embedding of `resetState`: clear the React state and return to idle.
(The ref and the live object URLs are untouched — the source calls no
revocation here.) -/
def resetState (s : ClientState) : ClientState :=
  { s with audioUrl := none, descriptionText := none,
           errorMessage := none, status := Status.idle }

/-- Outcome of the `fetch` to `/api/describe-image`, as the client observes
it: the fetch itself rejects; the response arrives with `ok` false (the
handler then throws); or the response is ok, carrying the decoded
description header (`none` when the header is absent) — with
`headerDecodeThrows` for a `decodeURIComponent` that throws. -/
inductive FetchOutcome where
  | fetchThrows
  | httpError
  | success (decodedHeader : Option String) (headerDecodeThrows : Bool)
  deriving DecidableEq, Repr

/-- The file-selection cases `handleFileChange` distinguishes: no file in
the input; a file whose declared type is not `image/…`; a file over 10 MB;
or a valid file, whose upload has some `FetchOutcome`. -/
inductive FileSelection where
  | noFile
  | nonImageType
  | tooLarge
  | validFile (outcome : FetchOutcome)
  deriving DecidableEq, Repr

/-- Embedding of `handleFileChange`. `selectedValue` is the value the
browser put into the input at selection time. The body follows the source:
revoke the previous object URL and clear the displayed state; early-return
paths for no file / wrong type / oversized file; otherwise upload, and on a
successful response create an object URL for the audio blob, revoke the
previous one (a no-op here), publish the new one, decode the description
header, and finish in `done` — any throw lands in the `catch` (revoke,
error state), and the `finally` clears the input. -/
def handleFileChange (s0 : ClientState) (selectedValue : String)
    (sel : FileSelection) : ClientState :=
  let s1 := { s0 with inputValue := selectedValue }
  let s2 := revokePreviousAudioUrl s1
  let s3 := { s2 with audioUrl := none, descriptionText := none,
                      errorMessage := none }
  match sel with
  | FileSelection.noFile => { s3 with status := Status.idle }
  | FileSelection.nonImageType =>
    { s3 with status := Status.error,
              errorMessage := some "Please select an image file (PNG, JPG, etc.).",
              inputValue := "" }
  | FileSelection.tooLarge =>
    { s3 with status := Status.error,
              errorMessage := some "File is too large. Please use an image under 10 MB.",
              inputValue := "" }
  | FileSelection.validFile outcome =>
    let s4 := { s3 with status := Status.uploading }
    match outcome with
    | FetchOutcome.fetchThrows =>
      let s5 := revokePreviousAudioUrl s4
      { s5 with status := Status.error,
                errorMessage := some "Something went wrong while generating the audio description.",
                inputValue := "" }
    | FetchOutcome.httpError =>
      let s5 := revokePreviousAudioUrl s4
      { s5 with status := Status.error,
                errorMessage := some "Something went wrong while generating the audio description.",
                inputValue := "" }
    | FetchOutcome.success decodedHeader headerDecodeThrows =>
      let s5 := { s4 with status := Status.processing }
      let r := createObjectURL s5
      let s6 := revokePreviousAudioUrl r.2
      let s7 := { s6 with audioObjectUrlRef := some r.1,
                          audioUrl := some r.1 }
      if headerDecodeThrows then
        let s8 := revokePreviousAudioUrl s7
        { s8 with status := Status.error,
                  errorMessage := some "Something went wrong while generating the audio description.",
                  inputValue := "" }
      else
        let s8 :=
          match decodedHeader with
          | some d => if d ≠ "" then { s7 with descriptionText := some d } else s7
          | none => s7
        { s8 with status := Status.done, inputValue := "" }

/-- The client events that drive the controller: a change event on the file
input, or a click on the Reset button. -/
inductive ClientEvent where
  | fileChange (selectedValue : String) (sel : FileSelection)
  | resetClick
  deriving DecidableEq, Repr

/-- One client step. -/
def clientStep (s : ClientState) : ClientEvent → ClientState
  | ClientEvent.fileChange v sel => handleFileChange s v sel
  | ClientEvent.resetClick => resetState s

/-- Run the controller over a sequence of events. -/
def runClient (s : ClientState) : List ClientEvent → ClientState
  | [] => s
  | e :: es => runClient (clientStep s e) es

/-- The client resource-discipline invariant: the browser's set of live
object URLs is empty, or is exactly the one URL held by
`audioObjectUrlRef`. -/
def handleInvariant (s : ClientState) : Prop :=
  (s.liveObjectUrls = [] ∧ s.audioObjectUrlRef = none) ∨
  (∃ h, s.liveObjectUrls = [h] ∧ s.audioObjectUrlRef = some h)

/-! ## Helper lemmas -/

/-- A declared type starting with `image/` is in particular non-empty. -/
theorem startsWith_image_ne_empty {s : String}
    (h : jsStartsWith s "image/" = true) : s ≠ "" := by
  intro hs
  subst hs
  exact absurd h (by decide)

/-- Truncation really bounds the length. -/
theorem jsSlice_length_le (s : String) (n : Nat) :
    (jsSlice s n).length ≤ n := by
  show (s.data.take n).length ≤ n
  rw [List.length_take]
  exact min_le_left _ _

/-- Every character code point is below 0x110000. -/
theorem char_toNat_lt (c : Char) : c.toNat < 1114112 := by
  rcases c.valid with h | ⟨h1, h2⟩
  · exact Nat.lt_trans h (by decide)
  · exact h2

/-- No character code point is a surrogate. -/
theorem char_valid_not_surrogate (c : Char) :
    c.toNat < 55296 ∨ 57343 < c.toNat := by
  rcases c.valid with h | ⟨h1, h2⟩
  · exact Or.inl h
  · exact Or.inr h1

/-- UTF-8 encoding produces bytes. -/
theorem utf8Bytes_lt256 (c : Char) : ∀ b ∈ utf8Bytes c, b < 256 := by
  intro b hb
  have hv := char_toNat_lt c
  unfold utf8Bytes at hb
  split_ifs at hb <;>
    simp only [List.mem_cons, List.not_mem_nil, or_false] at hb <;> omega

/-- Decoding step for an ASCII byte. -/
theorem utf8Decode_one (b0 : Nat) (bs : List Nat) (h : b0 < 128) :
    utf8Decode (b0 :: bs) = consMap (Char.ofNat b0) (utf8Decode bs) := by
  conv_lhs => rw [utf8Decode.eq_def]
  simp only []
  rw [if_pos h]

/-- Decoding step for a two-byte leader. -/
theorem utf8Decode_two (b0 b1 : Nat) (bs : List Nat) (h0 : 192 ≤ b0)
    (h1 : b0 < 224) :
    utf8Decode (b0 :: b1 :: bs) =
      (if contByte b1 && decide (128 ≤ (b0 - 192) * 64 + (b1 - 128)) then
        consMap (Char.ofNat ((b0 - 192) * 64 + (b1 - 128))) (utf8Decode bs)
      else none) := by
  conv_lhs => rw [utf8Decode.eq_def]
  simp only []
  rw [if_neg (by omega), if_neg (by omega), if_pos (by omega)]

/-- Decoding step for a three-byte leader. -/
theorem utf8Decode_three (b0 b1 b2 : Nat) (bs : List Nat) (h0 : 224 ≤ b0)
    (h1 : b0 < 240) :
    utf8Decode (b0 :: b1 :: b2 :: bs) =
      (if contByte b1 && contByte b2 &&
          decide (2048 ≤ (b0 - 224) * 4096 + (b1 - 128) * 64 + (b2 - 128)) &&
          scalarOk ((b0 - 224) * 4096 + (b1 - 128) * 64 + (b2 - 128)) then
        consMap (Char.ofNat ((b0 - 224) * 4096 + (b1 - 128) * 64 + (b2 - 128)))
          (utf8Decode bs)
      else none) := by
  conv_lhs => rw [utf8Decode.eq_def]
  simp only []
  rw [if_neg (by omega), if_neg (by omega), if_neg (by omega),
    if_pos (by omega)]

/-- Decoding step for a four-byte leader. -/
theorem utf8Decode_four (b0 b1 b2 b3 : Nat) (bs : List Nat) (h0 : 240 ≤ b0)
    (h1 : b0 < 248) :
    utf8Decode (b0 :: b1 :: b2 :: b3 :: bs) =
      (if contByte b1 && contByte b2 && contByte b3 &&
          decide (65536 ≤ (b0 - 240) * 262144 + (b1 - 128) * 4096 +
            (b2 - 128) * 64 + (b3 - 128)) &&
          decide ((b0 - 240) * 262144 + (b1 - 128) * 4096 +
            (b2 - 128) * 64 + (b3 - 128) < 1114112) then
        consMap (Char.ofNat ((b0 - 240) * 262144 + (b1 - 128) * 4096 +
            (b2 - 128) * 64 + (b3 - 128)))
          (utf8Decode bs)
      else none) := by
  conv_lhs => rw [utf8Decode.eq_def]
  simp only []
  rw [if_neg (by omega), if_neg (by omega), if_neg (by omega),
    if_neg (by omega), if_pos (by omega)]

/-- Decoding inverts the UTF-8 encoding of one character. -/
theorem utf8Decode_append (c : Char) (bs : List Nat) :
    utf8Decode (utf8Bytes c ++ bs) = consMap c (utf8Decode bs) := by
  have hv := char_toNat_lt c
  have hs := char_valid_not_surrogate c
  unfold utf8Bytes
  by_cases h1 : c.toNat < 128
  · rw [if_pos h1]
    show utf8Decode (c.toNat :: bs) = _
    rw [utf8Decode_one c.toNat bs h1, Char.ofNat_toNat]
  · rw [if_neg h1]
    by_cases h2 : c.toNat < 2048
    · rw [if_pos h2]
      show utf8Decode ((192 + c.toNat / 64) :: (128 + c.toNat % 64) :: bs) = _
      rw [utf8Decode_two _ _ _ (by omega) (by omega)]
      rw [if_pos (show _ = true by
        simp only [contByte, Bool.and_eq_true, decide_eq_true_eq]
        omega)]
      have harg : (192 + c.toNat / 64 - 192) * 64 + (128 + c.toNat % 64 - 128)
          = c.toNat := by omega
      rw [harg, Char.ofNat_toNat]
    · rw [if_neg h2]
      by_cases h3 : c.toNat < 65536
      · rw [if_pos h3]
        show utf8Decode ((224 + c.toNat / 4096) :: (128 + c.toNat / 64 % 64) ::
          (128 + c.toNat % 64) :: bs) = _
        rw [utf8Decode_three _ _ _ _ (by omega) (by omega)]
        rw [if_pos (show _ = true by
          simp only [contByte, scalarOk, Bool.and_eq_true, Bool.or_eq_true,
            decide_eq_true_eq]
          omega)]
        have harg : (224 + c.toNat / 4096 - 224) * 4096 +
            (128 + c.toNat / 64 % 64 - 128) * 64 + (128 + c.toNat % 64 - 128)
            = c.toNat := by omega
        rw [harg, Char.ofNat_toNat]
      · rw [if_neg h3]
        show utf8Decode ((240 + c.toNat / 262144) ::
          (128 + c.toNat / 4096 % 64) :: (128 + c.toNat / 64 % 64) ::
          (128 + c.toNat % 64) :: bs) = _
        rw [utf8Decode_four _ _ _ _ _ (by omega) (by omega)]
        rw [if_pos (show _ = true by
          simp only [contByte, Bool.and_eq_true, decide_eq_true_eq]
          omega)]
        have harg : (240 + c.toNat / 262144 - 240) * 262144 +
            (128 + c.toNat / 4096 % 64 - 128) * 4096 +
            (128 + c.toNat / 64 % 64 - 128) * 64 + (128 + c.toNat % 64 - 128)
            = c.toNat := by omega
        rw [harg, Char.ofNat_toNat]

/-- Decoding inverts the UTF-8 encoding of any character list. -/
theorem utf8Decode_flatMap (l : List Char) :
    utf8Decode (l.flatMap utf8Bytes) = some l := by
  induction l with
  | nil => rfl
  | cons c l ih =>
    rw [List.flatMap_cons, utf8Decode_append, ih]
    rfl

/-- Reading a hexadecimal digit inverts writing one. -/
theorem fromHexDigit_toHexDigit (m : Nat) (h : m < 16) :
    fromHexDigit (toHexDigit m) = some m := by
  interval_cases m <;> decide

/-- Collecting bytes inverts one percent escape. -/
theorem percentDecodeBytes_percentByte (b : Nat) (hb : b < 256)
    (rest : List Char) :
    percentDecodeBytes (percentByte b ++ rest) =
      byteConsMap b (percentDecodeBytes rest) := by
  show percentDecodeBytes
    ('%' :: toHexDigit (b / 16) :: toHexDigit (b % 16) :: rest) = _
  conv_lhs => rw [percentDecodeBytes.eq_def]
  simp only []
  rw [if_pos trivial]
  rw [fromHexDigit_toHexDigit (b / 16) (by omega),
    fromHexDigit_toHexDigit (b % 16) (by omega)]
  show byteConsMap (16 * (b / 16) + b % 16) (percentDecodeBytes rest) = _
  have hbb : 16 * (b / 16) + b % 16 = b := by omega
  rw [hbb]

/-- Collecting bytes inverts a run of percent escapes. -/
theorem percentDecodeBytes_bytes (bs : List Nat) (h : ∀ b ∈ bs, b < 256)
    (rest : List Char) :
    percentDecodeBytes (bs.flatMap percentByte ++ rest) =
      appendMap bs (percentDecodeBytes rest) := by
  induction bs with
  | nil =>
    show percentDecodeBytes rest = _
    cases percentDecodeBytes rest <;> rfl
  | cons b bs ih =>
    rw [List.flatMap_cons, List.append_assoc,
      percentDecodeBytes_percentByte b (h b (List.mem_cons_self b bs)),
      ih (fun x hx => h x (List.mem_cons_of_mem b hx))]
    cases percentDecodeBytes rest <;> rfl

/-- An unescaped character is never the escape character itself. -/
theorem isUnreservedChar_ne_percent {c : Char}
    (h : isUnreservedChar c = true) : ¬(c = '%') := by
  intro hc
  subst hc
  exact absurd h (by decide)

/-- Collecting bytes inverts the encoding of one character. -/
theorem percentDecodeBytes_encodeChar (c : Char) (rest : List Char) :
    percentDecodeBytes (encodeChar c ++ rest) =
      appendMap (utf8Bytes c) (percentDecodeBytes rest) := by
  unfold encodeChar
  by_cases hu : isUnreservedChar c = true
  · rw [if_pos hu]
    show percentDecodeBytes (c :: rest) = _
    conv_lhs => rw [percentDecodeBytes.eq_def]
    simp only []
    rw [if_neg (isUnreservedChar_ne_percent hu)]
  · rw [if_neg hu]
    exact percentDecodeBytes_bytes (utf8Bytes c) (utf8Bytes_lt256 c) rest

/-- Collecting bytes from an encoded string yields exactly the UTF-8 bytes
of the original. -/
theorem percentDecodeBytes_encode (l : List Char) :
    percentDecodeBytes (l.flatMap encodeChar) = some (l.flatMap utf8Bytes) := by
  induction l with
  | nil => rfl
  | cons c l ih =>
    rw [List.flatMap_cons, percentDecodeBytes_encodeChar, ih]
    rfl

/-- `decodeURIComponent` recovers the exact string `encodeURIComponent` was
applied to: percent-encoding is lossless. -/
theorem decodeURIComponent_encodeURIComponent (s : String) :
    decodeURIComponent (encodeURIComponent s) = some s := by
  show decodeURIComponent (String.mk (s.data.flatMap encodeChar)) = some s
  unfold decodeURIComponent
  rw [show (String.mk (s.data.flatMap encodeChar)).data
      = s.data.flatMap encodeChar from rfl]
  rw [percentDecodeBytes_encode]
  show stringMap (utf8Decode (s.data.flatMap utf8Bytes)) = some s
  rw [utf8Decode_flatMap]
  rfl

/-- When every part bears text, collecting the texts is just mapping with
the empty-string default. -/
theorem filterMap_text_of_all_isSome :
    ∀ ps : List ContentPart, ps.all (fun p => p.text.isSome) = true →
      ps.filterMap (fun p => p.text) = ps.map (fun p => p.text.getD "")
  | [], _ => rfl
  | p :: ps, h => by
    rw [List.all_cons, Bool.and_eq_true] at h
    obtain ⟨hp, hps⟩ := h
    obtain ⟨ot⟩ := p
    rcases ot with _ | t
    · simp at hp
    · simp [List.filterMap_cons, filterMap_text_of_all_isSome ps hps]

/-- Every unescaped character of `encodeURIComponent` is printable ASCII. -/
theorem isUnreservedChar_printable {c : Char}
    (h : isUnreservedChar c = true) :
    32 < c.toNat ∧ c.toNat < 127 := by
  unfold isUnreservedChar at h
  simp only [Bool.or_eq_true, Bool.and_eq_true, decide_eq_true_eq,
    beq_iff_eq] at h
  omega

/-- Every hexadecimal digit produced by `toHexDigit` is printable ASCII. -/
theorem toHexDigit_printable (n : Nat) :
    32 < (toHexDigit n).toNat ∧ (toHexDigit n).toNat < 127 := by
  match n with
  | 0 => decide
  | 1 => decide
  | 2 => decide
  | 3 => decide
  | 4 => decide
  | 5 => decide
  | 6 => decide
  | 7 => decide
  | 8 => decide
  | 9 => decide
  | 10 => decide
  | 11 => decide
  | 12 => decide
  | 13 => decide
  | 14 => decide
  | 15 => decide
  | (m + 16) => exact (by decide : 32 < ('0').toNat ∧ ('0').toNat < 127)

/-- Every character of a `%XX` escape is printable ASCII. -/
theorem percentByte_printable (b : Nat) :
    ∀ c ∈ percentByte b, 32 < c.toNat ∧ c.toNat < 127 := by
  intro c hc
  simp only [percentByte, List.mem_cons, List.not_mem_nil, or_false] at hc
  rcases hc with rfl | rfl | rfl
  · decide
  · exact toHexDigit_printable _
  · exact toHexDigit_printable _

/-- Every character `encodeURIComponent` emits for one input character is
printable ASCII. -/
theorem encodeChar_printable (c : Char) :
    ∀ x ∈ encodeChar c, 32 < x.toNat ∧ x.toNat < 127 := by
  intro x hx
  unfold encodeChar at hx
  split at hx
  · simp only [List.mem_singleton] at hx
    subst hx
    exact isUnreservedChar_printable (by assumption)
  · rw [List.mem_flatMap] at hx
    obtain ⟨b, _, hb⟩ := hx
    exact percentByte_printable b x hb

/-- `encodeURIComponent` only emits printable ASCII characters: no raw
control characters, no space, nothing beyond `~`. -/
theorem encodeURIComponent_printable (s : String) :
    ∀ c ∈ (encodeURIComponent s).data, 32 < c.toNat ∧ c.toNat < 127 := by
  intro c hc
  unfold encodeURIComponent at hc
  rw [show (String.mk (s.data.flatMap encodeChar)).data
        = s.data.flatMap encodeChar from rfl, List.mem_flatMap] at hc
  obtain ⟨x, _, hx⟩ := hc
  exact encodeChar_printable x c hx

/-- The multipart branch of the extractor, characterized. -/
theorem extract_multipart (req : Request) (url : String)
    (hct : jsStartsWith req.contentType "multipart/form-data" = true) :
    extractImageDataUrl req = some url ↔
      ∃ f, req.formFile = some (FormEntry.fileEntry f) ∧
        jsStartsWith f.type "image/" = true ∧
        f.size ≤ MAX_FILE_SIZE_BYTES ∧
        url = "data:" ++ f.type ++ ";base64," ++ f.base64 := by
  unfold extractImageDataUrl
  rcases hff : req.formFile with _ | entry
  · simp [hct, hff]
  · cases entry with
    | nonFile => simp [hct, hff]
    | fileEntry f =>
      cases hty : jsStartsWith f.type "image/"
      · simp [hct, hff, hty]
      · have hne : f.type ≠ "" := startsWith_image_ne_empty hty
        by_cases hsz : f.size > MAX_FILE_SIZE_BYTES
        · simp [hct, hff, hty, hsz]
        · simp [hct, hff, hty, hsz, hne]
          constructor
          · intro h
            exact ⟨by omega, h.symm⟩
          · intro h
            exact h.2.symm

/-- The JSON branch of the extractor, characterized. -/
theorem extract_json (req : Request) (url : String)
    (hct : jsStartsWith req.contentType "multipart/form-data" = false) :
    extractImageDataUrl req = some url ↔
      ∃ j, req.jsonBody = some j ∧ j.imageBase64 = some (JsonField.str url) ∧
        jsStartsWith url "data:image" = true := by
  unfold extractImageDataUrl
  rcases hjb : req.jsonBody with _ | j
  · simp [hct, hjb]
  · rcases hib : j.imageBase64 with _ | jf
    · simp [hct, hjb, hib]
    · cases jf with
      | nonString => simp [hct, hjb, hib]
      | str s =>
        cases hsw : jsStartsWith s "data:image"
        · simp [hct, hjb, hib, hsw]
          intro h
          rw [h] at hsw
          simp [hsw]
        · simp [hct, hjb, hib, hsw]
          intro h
          rw [← h]
          exact hsw

/-- `POSTtrace` on a rate-limit denial. -/
theorem POSTtrace_rateLimited (d : ArcjetDecision) (req : Request)
    (vision : Except Unit RawContent) (tts : Except Unit (List Nat))
    (h1 : d.isDenied = true) (h2 : d.reasonIsRateLimit = true) :
    POSTtrace d req vision tts =
      (⟨429, [], ResponseBody.jsonError "Too Many Requests"⟩, noEvents) := by
  unfold POSTtrace
  simp [h1, h2]

/-- `POSTtrace` on a bot denial. -/
theorem POSTtrace_bot (d : ArcjetDecision) (req : Request)
    (vision : Except Unit RawContent) (tts : Except Unit (List Nat))
    (h1 : d.isDenied = true) (h2 : d.reasonIsRateLimit = false)
    (h3 : d.reasonIsBot = true) :
    POSTtrace d req vision tts =
      (⟨403, [], ResponseBody.jsonError "No bots allowed"⟩, noEvents) := by
  unfold POSTtrace
  simp [h1, h2, h3]

/-- `POSTtrace` on any other denial. -/
theorem POSTtrace_deniedOther (d : ArcjetDecision) (req : Request)
    (vision : Except Unit RawContent) (tts : Except Unit (List Nat))
    (h1 : d.isDenied = true) (h2 : d.reasonIsRateLimit = false)
    (h3 : d.reasonIsBot = false) :
    POSTtrace d req vision tts =
      (⟨403, [], ResponseBody.jsonError "Forbidden"⟩, noEvents) := by
  unfold POSTtrace
  simp [h1, h2, h3]

/-- `POSTtrace` on a hosting-IP rejection. -/
theorem POSTtrace_hosting (d : ArcjetDecision) (req : Request)
    (vision : Except Unit RawContent) (tts : Except Unit (List Nat))
    (h1 : d.isDenied = false) (h2 : d.ipIsHosting = true) :
    POSTtrace d req vision tts =
      (⟨403, [], ResponseBody.jsonError "Forbidden"⟩, noEvents) := by
  unfold POSTtrace
  simp [h1, h2]

/-- `POSTtrace` on a spoofed-bot rejection. -/
theorem POSTtrace_spoofed (d : ArcjetDecision) (req : Request)
    (vision : Except Unit RawContent) (tts : Except Unit (List Nat))
    (h1 : d.isDenied = false) (h2 : d.ipIsHosting = false)
    (h3 : d.hasSpoofedBot = true) :
    POSTtrace d req vision tts =
      (⟨403, [], ResponseBody.jsonError "Forbidden"⟩, noEvents) := by
  unfold POSTtrace
  simp [h1, h2, h3]

/-- `POSTtrace` on an admitted request with no valid image payload. -/
theorem POSTtrace_invalidPayload (d : ArcjetDecision) (req : Request)
    (vision : Except Unit RawContent) (tts : Except Unit (List Nat))
    (h1 : d.isDenied = false) (h2 : d.ipIsHosting = false)
    (h3 : d.hasSpoofedBot = false) (hex : extractImageDataUrl req = none) :
    POSTtrace d req vision tts =
      (⟨400, [], ResponseBody.text "Invalid or missing image data"⟩,
       { noEvents with payloadExtractionRun := true }) := by
  unfold POSTtrace
  simp [h1, h2, h3, hex]

/-- `POSTtrace` on an admitted request whose vision call fails. -/
theorem POSTtrace_visionError (d : ArcjetDecision) (req : Request)
    (tts : Except Unit (List Nat)) (u : String)
    (h1 : d.isDenied = false) (h2 : d.ipIsHosting = false)
    (h3 : d.hasSpoofedBot = false) (hex : extractImageDataUrl req = some u) :
    POSTtrace d req (Except.error ()) tts =
      (⟨500, [], ResponseBody.text "Internal Server Error"⟩,
       { payloadExtractionRun := true, uploadedImageCreated := true,
         visionCalled := true, descriptionCreated := false,
         ttsCalled := false, ttsInput := none,
         audioArtifactCreated := false }) := by
  unfold POSTtrace
  simp [h1, h2, h3, hex]

/-- `POSTtrace` on an admitted request whose speech-synthesis call fails. -/
theorem POSTtrace_ttsError (d : ArcjetDecision) (req : Request)
    (raw : RawContent) (u : String)
    (h1 : d.isDenied = false) (h2 : d.ipIsHosting = false)
    (h3 : d.hasSpoofedBot = false) (hex : extractImageDataUrl req = some u) :
    POSTtrace d req (Except.ok raw) (Except.error ()) =
      (⟨500, [], ResponseBody.text "Internal Server Error"⟩,
       { payloadExtractionRun := true, uploadedImageCreated := true,
         visionCalled := true, descriptionCreated := true,
         ttsCalled := true, ttsInput := some (description raw),
         audioArtifactCreated := false }) := by
  unfold POSTtrace
  simp [h1, h2, h3, hex]

/-- `POSTtrace` on a fully successful request. -/
theorem POSTtrace_success (d : ArcjetDecision) (req : Request)
    (raw : RawContent) (audioBytes : List Nat) (u : String)
    (h1 : d.isDenied = false) (h2 : d.ipIsHosting = false)
    (h3 : d.hasSpoofedBot = false) (hex : extractImageDataUrl req = some u) :
    POSTtrace d req (Except.ok raw) (Except.ok audioBytes) =
      (⟨200,
        [("Content-Type", "audio/mpeg"),
         ("Content-Disposition", "attachment; filename=description.mp3"),
         ("Cache-Control", "no-store"),
         ("X-Description-Text", encodeURIComponent (description raw))],
        ResponseBody.audio audioBytes⟩,
       ⟨true, true, true, true, true, some (description raw), true⟩) := by
  unfold POSTtrace
  simp [h1, h2, h3, hex]

/-- Revoking from a state satisfying the invariant leaves no live URL and an
empty ref. -/
theorem revoke_clears (s : ClientState) (hs : handleInvariant s) :
    (revokePreviousAudioUrl s).liveObjectUrls = [] ∧
    (revokePreviousAudioUrl s).audioObjectUrlRef = none := by
  rcases hs with ⟨hl, hr⟩ | ⟨h, hl, hr⟩ <;>
    simp [revokePreviousAudioUrl, hl, hr]

/-- One client step preserves the live-handle invariant. -/
theorem clientStep_invariant (s : ClientState) (e : ClientEvent)
    (hs : handleInvariant s) : handleInvariant (clientStep s e) := by
  rcases e with ⟨v, sel⟩ | _
  case resetClick =>
    rcases hs with ⟨hl, hr⟩ | ⟨h, hl, hr⟩
    · exact Or.inl ⟨hl, hr⟩
    · exact Or.inr ⟨h, hl, hr⟩
  case fileChange =>
    rcases hs with ⟨hl, hr⟩ | ⟨h, hl, hr⟩ <;>
      rcases sel with _ | _ | _ | out
    case noFile =>
      simp [clientStep, handleFileChange, revokePreviousAudioUrl,
        handleInvariant, hl, hr]
    case nonImageType =>
      simp [clientStep, handleFileChange, revokePreviousAudioUrl,
        handleInvariant, hl, hr]
    case tooLarge =>
      simp [clientStep, handleFileChange, revokePreviousAudioUrl,
        handleInvariant, hl, hr]
    case validFile =>
      rcases out with _ | _ | ⟨dh, hb⟩
      case fetchThrows =>
        simp [clientStep, handleFileChange, revokePreviousAudioUrl,
          handleInvariant, hl, hr]
      case httpError =>
        simp [clientStep, handleFileChange, revokePreviousAudioUrl,
          handleInvariant, hl, hr]
      case success =>
        rcases dh with _ | d <;> cases hb <;>
          simp [clientStep, handleFileChange, revokePreviousAudioUrl,
            createObjectURL, handleInvariant, hl, hr] <;>
          (try (split <;> exact Or.inr ⟨_, rfl, rfl⟩))
    case noFile =>
      simp [clientStep, handleFileChange, revokePreviousAudioUrl,
        handleInvariant, hl, hr]
    case nonImageType =>
      simp [clientStep, handleFileChange, revokePreviousAudioUrl,
        handleInvariant, hl, hr]
    case tooLarge =>
      simp [clientStep, handleFileChange, revokePreviousAudioUrl,
        handleInvariant, hl, hr]
    case validFile =>
      rcases out with _ | _ | ⟨dh, hb⟩
      case fetchThrows =>
        simp [clientStep, handleFileChange, revokePreviousAudioUrl,
          handleInvariant, hl, hr]
      case httpError =>
        simp [clientStep, handleFileChange, revokePreviousAudioUrl,
          handleInvariant, hl, hr]
      case success =>
        rcases dh with _ | d <;> cases hb <;>
          simp [clientStep, handleFileChange, revokePreviousAudioUrl,
            createObjectURL, handleInvariant, hl, hr] <;>
          (try (split <;> exact Or.inr ⟨_, rfl, rfl⟩))

/-- Any run of client events preserves the live-handle invariant. -/
theorem runClient_invariant (es : List ClientEvent) :
    ∀ s : ClientState, handleInvariant s →
      handleInvariant (runClient s es) := by
  induction es with
  | nil => exact fun _ hs => hs
  | cons e es ih => exact fun s hs => ih _ (clientStep_invariant s e hs)

/-- Within one interval of the last refill, a limiter step is a pure
decrement: no tokens are added. -/
theorem bucketStep_within (tok t0 t : Nat) (hcap : tok ≤ 5) (h1 : t0 ≤ t)
    (h2 : t < t0 + 60) :
    bucketStep ajTokenBucket ⟨tok, t0⟩ t 1 =
      if 1 ≤ tok then (true, ⟨tok - 1, t0⟩) else (false, ⟨tok, t0⟩) := by
  unfold bucketStep ajTokenBucket
  have hz : (t - t0) / 60 = 0 := Nat.div_eq_of_lt (by omega)
  simp [hz, Nat.min_eq_right hcap]

/-! ## Claims -/

/-- C1: the admission decision is computed before any payload extraction or
inference call; a rate-limit denial returns HTTP 429, a bot denial HTTP 403
("No bots allowed"), every other denial (shield, hosting IP, spoofed bot) a
generic HTTP 403, and a denied request creates no UploadedImage, Description
or AudioArtifact (the event trace is empty). -/
theorem admission_denial_short_circuits (d : ArcjetDecision) (req : Request)
    (vision : Except Unit RawContent) (tts : Except Unit (List Nat))
    (h : d.isDenied = true ∨ d.ipIsHosting = true ∨ d.hasSpoofedBot = true) :
    (POSTtrace d req vision tts).2 = noEvents ∧
    POST d req vision tts =
      (if d.isDenied && d.reasonIsRateLimit then
        ⟨429, [], ResponseBody.jsonError "Too Many Requests"⟩
       else if d.isDenied && d.reasonIsBot then
        ⟨403, [], ResponseBody.jsonError "No bots allowed"⟩
       else
        ⟨403, [], ResponseBody.jsonError "Forbidden"⟩) := by
  obtain ⟨den, rl, bot, host, spoof⟩ := d
  cases den <;> cases rl <;> cases bot <;> cases host <;> cases spoof <;>
    first
      | (rcases h with h | h | h <;> exact absurd h (by decide))
      | exact ⟨rfl, rfl⟩

/-- Witness for C1: a concrete bot denial is an empty trace and a 403. -/
theorem admission_denial_short_circuits_witness :
    ((⟨true, false, true, false, false⟩ : ArcjetDecision).isDenied = true ∨
      (⟨true, false, true, false, false⟩ : ArcjetDecision).ipIsHosting = true ∨
      (⟨true, false, true, false, false⟩ : ArcjetDecision).hasSpoofedBot = true) ∧
    (POSTtrace ⟨true, false, true, false, false⟩
        ⟨"application/json", none, none⟩ (Except.ok RawContent.nullish)
        (Except.ok [])).2 = noEvents ∧
    POST ⟨true, false, true, false, false⟩ ⟨"application/json", none, none⟩
        (Except.ok RawContent.nullish) (Except.ok []) =
      (if (⟨true, false, true, false, false⟩ : ArcjetDecision).isDenied &&
          (⟨true, false, true, false, false⟩ : ArcjetDecision).reasonIsRateLimit then
        ⟨429, [], ResponseBody.jsonError "Too Many Requests"⟩
       else if (⟨true, false, true, false, false⟩ : ArcjetDecision).isDenied &&
          (⟨true, false, true, false, false⟩ : ArcjetDecision).reasonIsBot then
        ⟨403, [], ResponseBody.jsonError "No bots allowed"⟩
       else
        ⟨403, [], ResponseBody.jsonError "Forbidden"⟩) :=
  ⟨Or.inl rfl,
   admission_denial_short_circuits ⟨true, false, true, false, false⟩
     ⟨"application/json", none, none⟩ (Except.ok RawContent.nullish)
     (Except.ok []) (Or.inl rfl)⟩

/-- C2: the handler is a total function of its inputs whose status is always
one of 200, 400, 403, 429, 500; whenever an upstream call fails the status is
not 200 (the error is converted, never propagated). -/
theorem handler_status_total (d : ArcjetDecision) (req : Request)
    (vision : Except Unit RawContent) (tts : Except Unit (List Nat)) :
    ((POST d req vision tts).status = 200 ∨
     (POST d req vision tts).status = 400 ∨
     (POST d req vision tts).status = 403 ∨
     (POST d req vision tts).status = 429 ∨
     (POST d req vision tts).status = 500) ∧
    ((vision = Except.error () ∨ tts = Except.error ()) →
      (POST d req vision tts).status ≠ 200) := by
  unfold POST
  by_cases h1 : d.isDenied = true
  · by_cases h2 : d.reasonIsRateLimit = true
    · rw [POSTtrace_rateLimited d req vision tts h1 h2]
      exact ⟨by simp, fun _ => by simp⟩
    · rw [Bool.not_eq_true] at h2
      by_cases h3 : d.reasonIsBot = true
      · rw [POSTtrace_bot d req vision tts h1 h2 h3]
        exact ⟨by simp, fun _ => by simp⟩
      · rw [Bool.not_eq_true] at h3
        rw [POSTtrace_deniedOther d req vision tts h1 h2 h3]
        exact ⟨by simp, fun _ => by simp⟩
  · rw [Bool.not_eq_true] at h1
    by_cases h2 : d.ipIsHosting = true
    · rw [POSTtrace_hosting d req vision tts h1 h2]
      exact ⟨by simp, fun _ => by simp⟩
    · rw [Bool.not_eq_true] at h2
      by_cases h3 : d.hasSpoofedBot = true
      · rw [POSTtrace_spoofed d req vision tts h1 h2 h3]
        exact ⟨by simp, fun _ => by simp⟩
      · rw [Bool.not_eq_true] at h3
        rcases hex : extractImageDataUrl req with _ | u
        · rw [POSTtrace_invalidPayload d req vision tts h1 h2 h3 hex]
          exact ⟨by simp, fun _ => by simp⟩
        · cases vision with
          | error e =>
            cases e
            rw [POSTtrace_visionError d req tts u h1 h2 h3 hex]
            exact ⟨by simp, fun _ => by simp⟩
          | ok raw =>
            cases tts with
            | error e =>
              cases e
              rw [POSTtrace_ttsError d req raw u h1 h2 h3 hex]
              exact ⟨by simp, fun _ => by simp⟩
            | ok audioBytes =>
              rw [POSTtrace_success d req raw audioBytes u h1 h2 h3 hex]
              refine ⟨by simp, fun hv => ?_⟩
              rcases hv with hv | hv <;> exact absurd hv (by simp)

/-- Witness for C2: a concrete failing vision call does not produce 200. -/
theorem handler_status_total_witness :
    ((Except.error () : Except Unit RawContent) = Except.error () ∨
      (Except.ok [] : Except Unit (List Nat)) = Except.error ()) ∧
    (POST ⟨false, false, false, false, false⟩
      ⟨"application/json", none,
       some ⟨some (JsonField.str "data:image/png;base64,AAA")⟩⟩
      (Except.error ()) (Except.ok [])).status ≠ 200 :=
  ⟨Or.inl rfl,
   (handler_status_total ⟨false, false, false, false, false⟩
     ⟨"application/json", none,
      some ⟨some (JsonField.str "data:image/png;base64,AAA")⟩⟩
     (Except.error ()) (Except.ok [])).2 (Or.inl rfl)⟩

/-- C3: the extractor returns a data URL exactly for a multipart request
whose `file` field holds a file of declared image type and size at most
10 MiB (yielding `data:<declared mime>;base64,<payload>`), or for a body
whose JSON carries a string `imageBase64` starting with `data:image`,
passed through unchanged; every other input yields the no-image result, on
which the admitted handler returns HTTP 400 and makes no inference call. -/
theorem extractImageDataUrl_characterization (req : Request) :
    (∀ url, extractImageDataUrl req = some url ↔
      ((jsStartsWith req.contentType "multipart/form-data" = true ∧
        ∃ f, req.formFile = some (FormEntry.fileEntry f) ∧
          jsStartsWith f.type "image/" = true ∧
          f.size ≤ MAX_FILE_SIZE_BYTES ∧
          url = "data:" ++ f.type ++ ";base64," ++ f.base64) ∨
       (jsStartsWith req.contentType "multipart/form-data" = false ∧
        ∃ j, req.jsonBody = some j ∧
          j.imageBase64 = some (JsonField.str url) ∧
          jsStartsWith url "data:image" = true))) ∧
    (∀ (d : ArcjetDecision) (vision : Except Unit RawContent)
        (tts : Except Unit (List Nat)),
      d.isDenied = false → d.ipIsHosting = false → d.hasSpoofedBot = false →
      extractImageDataUrl req = none →
      POST d req vision tts =
        ⟨400, [], ResponseBody.text "Invalid or missing image data"⟩ ∧
      (POSTtrace d req vision tts).2.uploadedImageCreated = false ∧
      (POSTtrace d req vision tts).2.visionCalled = false ∧
      (POSTtrace d req vision tts).2.ttsCalled = false) := by
  constructor
  · intro url
    cases hct : jsStartsWith req.contentType "multipart/form-data"
    · rw [extract_json req url hct]
      constructor
      · intro h
        exact Or.inr ⟨rfl, h⟩
      · rintro (⟨h1, _⟩ | ⟨_, h⟩)
        · exact Bool.noConfusion h1
        · exact h
    · rw [extract_multipart req url hct]
      constructor
      · intro h
        exact Or.inl ⟨rfl, h⟩
      · rintro (⟨_, h⟩ | ⟨h1, _⟩)
        · exact h
        · exact Bool.noConfusion h1
  · intro d vision tts h1 h2 h3 hex
    unfold POST
    rw [POSTtrace_invalidPayload d req vision tts h1 h2 h3 hex]
    exact ⟨rfl, rfl, rfl, rfl⟩

/-- Witness for C3: a concrete JSON request with a valid data URL is passed
through, and a concrete JSON request with a non-string field yields 400. -/
theorem extractImageDataUrl_characterization_witness :
    extractImageDataUrl
      ⟨"application/json", none,
       some ⟨some (JsonField.str "data:image/png;base64,AAA")⟩⟩ =
      some "data:image/png;base64,AAA" ∧
    POST ⟨false, false, false, false, false⟩
      ⟨"application/json", none, some ⟨some JsonField.nonString⟩⟩
      (Except.ok RawContent.nullish) (Except.ok []) =
      ⟨400, [], ResponseBody.text "Invalid or missing image data"⟩ :=
  ⟨((extractImageDataUrl_characterization
      ⟨"application/json", none,
       some ⟨some (JsonField.str "data:image/png;base64,AAA")⟩⟩).1
      "data:image/png;base64,AAA").mpr
    (Or.inr ⟨by decide, ⟨_, rfl, rfl, by decide⟩⟩),
   ((extractImageDataUrl_characterization
      ⟨"application/json", none, some ⟨some JsonField.nonString⟩⟩).2
      ⟨false, false, false, false, false⟩
      (Except.ok RawContent.nullish) (Except.ok [])
      rfl rfl rfl rfl).1⟩

/-- C10: whenever the extractor returns a data URL for a multipart request,
the MIME component is the file's declared type, which is non-empty and
starts with `image/`; the `image/png` default is not taken. -/
theorem multipart_mime_is_declared_type (req : Request) (url : String)
    (hct : jsStartsWith req.contentType "multipart/form-data" = true)
    (h : extractImageDataUrl req = some url) :
    ∃ f, req.formFile = some (FormEntry.fileEntry f) ∧
      f.type ≠ "" ∧ jsStartsWith f.type "image/" = true ∧
      (if f.type = "" then "image/png" else f.type) = f.type ∧
      url = "data:" ++ f.type ++ ";base64," ++ f.base64 := by
  obtain ⟨f, hff, hty, hsz, hurl⟩ := (extract_multipart req url hct).mp h
  have hne := startsWith_image_ne_empty hty
  exact ⟨f, hff, hne, hty, if_neg hne, hurl⟩

/-- Witness for C10: a concrete JPEG upload keeps its declared MIME type. -/
theorem multipart_mime_is_declared_type_witness :
    (jsStartsWith "multipart/form-data; boundary=x" "multipart/form-data" = true) ∧
    (extractImageDataUrl
      ⟨"multipart/form-data; boundary=x",
       some (FormEntry.fileEntry ⟨"image/jpeg", 3, "QUJD"⟩), none⟩ =
      some "data:image/jpeg;base64,QUJD") ∧
    (∃ f, (⟨"multipart/form-data; boundary=x",
            some (FormEntry.fileEntry ⟨"image/jpeg", 3, "QUJD"⟩),
            none⟩ : Request).formFile = some (FormEntry.fileEntry f) ∧
      f.type ≠ "" ∧ jsStartsWith f.type "image/" = true ∧
      (if f.type = "" then "image/png" else f.type) = f.type ∧
      "data:image/jpeg;base64,QUJD" =
        "data:" ++ f.type ++ ";base64," ++ f.base64) :=
  ⟨by decide, by decide,
   multipart_mime_is_declared_type
     ⟨"multipart/form-data; boundary=x",
      some (FormEntry.fileEntry ⟨"image/jpeg", 3, "QUJD"⟩), none⟩
     "data:image/jpeg;base64,QUJD" (by decide) (by decide)⟩

/-- C4: the final description is the normalized text, trimmed then truncated
to 800 characters, with the literal fallback exactly when that result is
empty; it is never empty and never longer than 800 characters, and it is
exactly the text handed to the speech-synthesis stage whenever that stage
runs. -/
theorem description_normalized_bounded (raw : RawContent) (d : ArcjetDecision)
    (req : Request) (tts : Except Unit (List Nat)) :
    description raw =
      (if jsSlice (jsTrim (normalizeContent raw)) 800 = "" then
        "No description available."
       else jsSlice (jsTrim (normalizeContent raw)) 800) ∧
    description raw ≠ "" ∧
    (description raw).length ≤ 800 ∧
    ((POSTtrace d req (Except.ok raw) tts).2.ttsCalled = true →
      (POSTtrace d req (Except.ok raw) tts).2.ttsInput =
        some (description raw)) := by
  refine ⟨rfl, ?_, ?_, ?_⟩
  · unfold description
    split
    · decide
    · next h => exact h
  · unfold description
    split
    · decide
    · exact jsSlice_length_le _ _
  · intro hcall
    by_cases h1 : d.isDenied = true
    · by_cases h2 : d.reasonIsRateLimit = true
      · rw [POSTtrace_rateLimited d req (Except.ok raw) tts h1 h2] at hcall
        simp [noEvents] at hcall
      · rw [Bool.not_eq_true] at h2
        by_cases h3 : d.reasonIsBot = true
        · rw [POSTtrace_bot d req (Except.ok raw) tts h1 h2 h3] at hcall
          simp [noEvents] at hcall
        · rw [Bool.not_eq_true] at h3
          rw [POSTtrace_deniedOther d req (Except.ok raw) tts h1 h2 h3] at hcall
          simp [noEvents] at hcall
    · rw [Bool.not_eq_true] at h1
      by_cases h2 : d.ipIsHosting = true
      · rw [POSTtrace_hosting d req (Except.ok raw) tts h1 h2] at hcall
        simp [noEvents] at hcall
      · rw [Bool.not_eq_true] at h2
        by_cases h3 : d.hasSpoofedBot = true
        · rw [POSTtrace_spoofed d req (Except.ok raw) tts h1 h2 h3] at hcall
          simp [noEvents] at hcall
        · rw [Bool.not_eq_true] at h3
          rcases hex : extractImageDataUrl req with _ | u
          · rw [POSTtrace_invalidPayload d req (Except.ok raw) tts h1 h2 h3 hex]
              at hcall
            simp [noEvents] at hcall
          · cases tts with
            | error e =>
              cases e
              rw [POSTtrace_ttsError d req raw u h1 h2 h3 hex]
            | ok audioBytes =>
              rw [POSTtrace_success d req raw audioBytes u h1 h2 h3 hex]

/-- Witness for C4: a concrete successful run passes the one-word
description to the speech stage. -/
theorem description_normalized_bounded_witness :
    description (RawContent.str "hi") =
      (if jsSlice (jsTrim (normalizeContent (RawContent.str "hi"))) 800 = "" then
        "No description available."
       else jsSlice (jsTrim (normalizeContent (RawContent.str "hi"))) 800) ∧
    description (RawContent.str "hi") ≠ "" ∧
    (description (RawContent.str "hi")).length ≤ 800 ∧
    (POSTtrace ⟨false, false, false, false, false⟩
      ⟨"application/json", none,
       some ⟨some (JsonField.str "data:image/png;base64,AAA")⟩⟩
      (Except.ok (RawContent.str "hi")) (Except.ok [7])).2.ttsCalled = true ∧
    (POSTtrace ⟨false, false, false, false, false⟩
      ⟨"application/json", none,
       some ⟨some (JsonField.str "data:image/png;base64,AAA")⟩⟩
      (Except.ok (RawContent.str "hi"))
      (Except.ok [7])).2.ttsInput = some (description (RawContent.str "hi")) :=
  have h := description_normalized_bounded (RawContent.str "hi")
    ⟨false, false, false, false, false⟩
    ⟨"application/json", none,
     some ⟨some (JsonField.str "data:image/png;base64,AAA")⟩⟩
    (Except.ok [7])
  ⟨h.1, h.2.1, h.2.2.1, by decide, h.2.2.2 (by decide)⟩

/-- C5 counterexample: for the part list `[text "a", no-text, text "b"]` the
code's normalization is `"a  b"` (the no-text part still introduces a
separator), which differs from the spec's join of only the text-bearing
parts, `"a b"`; the difference survives into the final description. -/
theorem normalize_parts_counterexample :
    normalizeContent (RawContent.parts [⟨some "a"⟩, ⟨none⟩, ⟨some "b"⟩]) ≠
      specJoinTextBearingParts [⟨some "a"⟩, ⟨none⟩, ⟨some "b"⟩] ∧
    normalizeContent (RawContent.parts [⟨some "a"⟩, ⟨none⟩, ⟨some "b"⟩]) =
      "a  b" ∧
    specJoinTextBearingParts [⟨some "a"⟩, ⟨none⟩, ⟨some "b"⟩] = "a b" ∧
    description (RawContent.parts [⟨some "a"⟩, ⟨none⟩, ⟨some "b"⟩]) =
      "a  b" :=
  ⟨by decide, by decide, by decide, by decide⟩

/-- C5 (amended): the normalized text joins the texts of all parts with
single-space separators, a part without text contributing the empty string
(and hence an extra separator); when every part bears text this coincides
with the spec's join of the text-bearing parts. -/
theorem normalize_parts_amended (ps : List ContentPart) :
    normalizeContent (RawContent.parts ps) =
      String.intercalate " " (ps.map (fun p => p.text.getD "")) ∧
    (ps.all (fun p => p.text.isSome) = true →
      normalizeContent (RawContent.parts ps) =
        specJoinTextBearingParts ps) := by
  refine ⟨rfl, fun hall => ?_⟩
  unfold normalizeContent specJoinTextBearingParts
  rw [filterMap_text_of_all_isSome ps hall]

/-- Witness for C5 (amended): with every part text-bearing, the two
normalizations agree. -/
theorem normalize_parts_amended_witness :
    ([⟨some "a"⟩, ⟨some "b"⟩] : List ContentPart).all
      (fun p => p.text.isSome) = true ∧
    normalizeContent (RawContent.parts [⟨some "a"⟩, ⟨some "b"⟩]) =
      specJoinTextBearingParts [⟨some "a"⟩, ⟨some "b"⟩] :=
  ⟨by decide, (normalize_parts_amended _).2 (by decide)⟩

/-- C6: every 200 response carries exactly the four headers — audio/mpeg
content type, attachment disposition, no-store cache control, and the
percent-encoded description — the encoded description consists solely of
printable ASCII characters (no control characters, no spaces, no
non-ASCII), and percent-decoding the header value recovers the description
exactly. -/
theorem success_response_headers (d : ArcjetDecision) (req : Request)
    (vision : Except Unit RawContent) (tts : Except Unit (List Nat))
    (h : (POST d req vision tts).status = 200) :
    ∃ raw audioBytes, vision = Except.ok raw ∧ tts = Except.ok audioBytes ∧
      (POST d req vision tts).headers =
        [("Content-Type", "audio/mpeg"),
         ("Content-Disposition", "attachment; filename=description.mp3"),
         ("Cache-Control", "no-store"),
         ("X-Description-Text", encodeURIComponent (description raw))] ∧
      (∀ c ∈ (encodeURIComponent (description raw)).data,
        32 < c.toNat ∧ c.toNat < 127) ∧
      decodeURIComponent (encodeURIComponent (description raw)) =
        some (description raw) := by
  unfold POST at h ⊢
  by_cases h1 : d.isDenied = true
  · by_cases h2 : d.reasonIsRateLimit = true
    · rw [POSTtrace_rateLimited d req vision tts h1 h2] at h
      simp at h
    · rw [Bool.not_eq_true] at h2
      by_cases h3 : d.reasonIsBot = true
      · rw [POSTtrace_bot d req vision tts h1 h2 h3] at h
        simp at h
      · rw [Bool.not_eq_true] at h3
        rw [POSTtrace_deniedOther d req vision tts h1 h2 h3] at h
        simp at h
  · rw [Bool.not_eq_true] at h1
    by_cases h2 : d.ipIsHosting = true
    · rw [POSTtrace_hosting d req vision tts h1 h2] at h
      simp at h
    · rw [Bool.not_eq_true] at h2
      by_cases h3 : d.hasSpoofedBot = true
      · rw [POSTtrace_spoofed d req vision tts h1 h2 h3] at h
        simp at h
      · rw [Bool.not_eq_true] at h3
        rcases hex : extractImageDataUrl req with _ | u
        · rw [POSTtrace_invalidPayload d req vision tts h1 h2 h3 hex] at h
          simp at h
        · cases vision with
          | error e =>
            cases e
            rw [POSTtrace_visionError d req tts u h1 h2 h3 hex] at h
            simp at h
          | ok raw =>
            cases tts with
            | error e =>
              cases e
              rw [POSTtrace_ttsError d req raw u h1 h2 h3 hex] at h
              simp at h
            | ok audioBytes =>
              refine ⟨raw, audioBytes, rfl, rfl, ?_,
                encodeURIComponent_printable _,
                decodeURIComponent_encodeURIComponent _⟩
              rw [POSTtrace_success d req raw audioBytes u h1 h2 h3 hex]

/-- Witness for C6: a concrete successful run has exactly the four headers,
and the custom header decodes back to the description. -/
theorem success_response_headers_witness :
    (POST ⟨false, false, false, false, false⟩
      ⟨"application/json", none,
       some ⟨some (JsonField.str "data:image/png;base64,AAA")⟩⟩
      (Except.ok (RawContent.str "hi")) (Except.ok [7])).status = 200 ∧
    (∃ raw audioBytes,
      (Except.ok (RawContent.str "hi") : Except Unit RawContent) =
        Except.ok raw ∧
      (Except.ok [7] : Except Unit (List Nat)) = Except.ok audioBytes ∧
      (POST ⟨false, false, false, false, false⟩
        ⟨"application/json", none,
         some ⟨some (JsonField.str "data:image/png;base64,AAA")⟩⟩
        (Except.ok (RawContent.str "hi")) (Except.ok [7])).headers =
        [("Content-Type", "audio/mpeg"),
         ("Content-Disposition", "attachment; filename=description.mp3"),
         ("Cache-Control", "no-store"),
         ("X-Description-Text", encodeURIComponent (description raw))] ∧
      (∀ c ∈ (encodeURIComponent (description raw)).data,
        32 < c.toNat ∧ c.toNat < 127) ∧
      decodeURIComponent (encodeURIComponent (description raw)) =
        some (description raw)) :=
  ⟨by decide,
   success_response_headers ⟨false, false, false, false, false⟩
     ⟨"application/json", none,
      some ⟨some (JsonField.str "data:image/png;base64,AAA")⟩⟩
     (Except.ok (RawContent.str "hi")) (Except.ok [7]) (by decide)⟩

/-- C7 counterexample: after a successful upload, clicking Reset leaves the
object URL live and still held by the ref — `resetState` revokes nothing, so
the claim's "every reset action revokes the previously live handle" fails on
the code (the handle stays live until the next upload revokes it). -/
theorem reset_does_not_revoke_counterexample :
    (runClient initialClientState
      [ClientEvent.fileChange "photo.png"
        (FileSelection.validFile (FetchOutcome.success none false))]
      ).liveObjectUrls = [0] ∧
    (runClient initialClientState
      [ClientEvent.fileChange "photo.png"
        (FileSelection.validFile (FetchOutcome.success none false)),
       ClientEvent.resetClick]).liveObjectUrls = [0] ∧
    (runClient initialClientState
      [ClientEvent.fileChange "photo.png"
        (FileSelection.validFile (FetchOutcome.success none false)),
       ClientEvent.resetClick]).audioObjectUrlRef = some 0 :=
  ⟨by decide, by decide, by decide⟩

/-- C7 (amended): at most one local playable-audio handle is ever live — a
new upload revokes the previous handle at its start, before any new handle
is acquired — but the reset action itself revokes nothing: it leaves the
live object URLs and the ref exactly as they were, and the surviving handle
is only reclaimed by the next upload. -/
theorem client_single_live_handle (es : List ClientEvent) :
    (runClient initialClientState es).liveObjectUrls.length ≤ 1 ∧
    (resetState (runClient initialClientState es)).liveObjectUrls =
      (runClient initialClientState es).liveObjectUrls ∧
    (resetState (runClient initialClientState es)).audioObjectUrlRef =
      (runClient initialClientState es).audioObjectUrlRef := by
  refine ⟨?_, rfl, rfl⟩
  rcases runClient_invariant es initialClientState (Or.inl ⟨rfl, rfl⟩) with
    ⟨hl, _⟩ | ⟨h, hl, _⟩ <;> simp [hl]

/-- C8: with the configured bucket (capacity 5, refill 5 per 60-second
interval) starting full, six requests from one client key within 60 seconds
see the first five allowed and exactly the sixth denied; composing the
denial with the handler yields HTTP 429, while an allowed admission can
never yield 429. -/
theorem sixth_request_rate_limited (t1 t2 t3 t4 t5 t6 : Nat)
    (req : Request) (vision : Except Unit RawContent)
    (tts : Except Unit (List Nat))
    (h12 : t1 ≤ t2) (h23 : t2 ≤ t3) (h34 : t3 ≤ t4) (h45 : t4 ≤ t5)
    (h56 : t5 ≤ t6) (hw : t6 < t1 + 60) :
    runBucket ajTokenBucket ⟨5, t1⟩ [t1, t2, t3, t4, t5, t6] =
      [true, true, true, true, true, false] ∧
    (POST (admissionOfBucket false) req vision tts).status = 429 ∧
    (POST (admissionOfBucket true) req vision tts).status ≠ 429 := by
  refine ⟨?_, rfl, ?_⟩
  · have e1 : bucketStep ajTokenBucket ⟨5, t1⟩ t1 1 = (true, ⟨4, t1⟩) := by
      rw [bucketStep_within 5 t1 t1 (by omega) (by omega) (by omega)]
      simp
    have e2 : bucketStep ajTokenBucket ⟨4, t1⟩ t2 1 = (true, ⟨3, t1⟩) := by
      rw [bucketStep_within 4 t1 t2 (by omega) (by omega) (by omega)]
      simp
    have e3 : bucketStep ajTokenBucket ⟨3, t1⟩ t3 1 = (true, ⟨2, t1⟩) := by
      rw [bucketStep_within 3 t1 t3 (by omega) (by omega) (by omega)]
      simp
    have e4 : bucketStep ajTokenBucket ⟨2, t1⟩ t4 1 = (true, ⟨1, t1⟩) := by
      rw [bucketStep_within 2 t1 t4 (by omega) (by omega) (by omega)]
      simp
    have e5 : bucketStep ajTokenBucket ⟨1, t1⟩ t5 1 = (true, ⟨0, t1⟩) := by
      rw [bucketStep_within 1 t1 t5 (by omega) (by omega) (by omega)]
      simp
    have e6 : bucketStep ajTokenBucket ⟨0, t1⟩ t6 1 = (false, ⟨0, t1⟩) := by
      rw [bucketStep_within 0 t1 t6 (by omega) (by omega) (by omega)]
      simp
    simp [runBucket, e1, e2, e3, e4, e5, e6]
  · rcases hex : extractImageDataUrl req with _ | u
    · unfold POST
      rw [POSTtrace_invalidPayload _ req vision tts rfl rfl rfl hex]
      simp
    · cases vision with
      | error e =>
        cases e
        unfold POST
        rw [POSTtrace_visionError _ req tts u rfl rfl rfl hex]
        simp
      | ok raw =>
        cases tts with
        | error e =>
          cases e
          unfold POST
          rw [POSTtrace_ttsError _ req raw u rfl rfl rfl hex]
          simp
        | ok audioBytes =>
          unfold POST
          rw [POSTtrace_success _ req raw audioBytes u rfl rfl rfl hex]
          simp

/-- Witness for C8: requests at 0, 10, 20, 30, 40 and 50 seconds. -/
theorem sixth_request_rate_limited_witness :
    runBucket ajTokenBucket ⟨5, 0⟩ [0, 10, 20, 30, 40, 50] =
      [true, true, true, true, true, false] ∧
    (POST (admissionOfBucket false)
      ⟨"application/json", none,
       some ⟨some (JsonField.str "data:image/png;base64,AAA")⟩⟩
      (Except.ok (RawContent.str "hi")) (Except.ok [7])).status = 429 ∧
    (POST (admissionOfBucket true)
      ⟨"application/json", none,
       some ⟨some (JsonField.str "data:image/png;base64,AAA")⟩⟩
      (Except.ok (RawContent.str "hi")) (Except.ok [7])).status ≠ 429 :=
  sixth_request_rate_limited 0 10 20 30 40 50
    ⟨"application/json", none,
     some ⟨some (JsonField.str "data:image/png;base64,AAA")⟩⟩
    (Except.ok (RawContent.str "hi")) (Except.ok [7])
    (by decide) (by decide) (by decide) (by decide) (by decide) (by decide)

/-- C9: every file-selection attempt that selects a file — whether it fails
validation, errors during upload, or succeeds — leaves the file input's
value cleared at the end of the attempt. -/
theorem input_value_cleared (s : ClientState) (v : String)
    (sel : FileSelection) (h : sel ≠ FileSelection.noFile) :
    (handleFileChange s v sel).inputValue = "" := by
  cases sel with
  | noFile => exact absurd rfl h
  | nonImageType => rfl
  | tooLarge => rfl
  | validFile out =>
    cases out with
    | fetchThrows => rfl
    | httpError => rfl
    | success dh hb => cases hb <;> rfl

/-- Witness for C9: a concrete invalid-type selection clears the input. -/
theorem input_value_cleared_witness :
    (FileSelection.nonImageType ≠ FileSelection.noFile) ∧
    (handleFileChange initialClientState "cat.png"
      FileSelection.nonImageType).inputValue = "" :=
  ⟨by decide, input_value_cleared initialClientState "cat.png"
    FileSelection.nonImageType (by decide)⟩

end ImageAccessibility
